import Mathlib

/-!
# PASA — verification of the job-application pipeline core

Shallow embedding of the PASA repository's classification-and-decision
pipeline (whatsapp parser, job detector, enrichment gating, fit scorer,
orchestrator dispatch) together with proofs about the behaviour its
specification claims.

Python strings are modelled as Lean `String`/`List Char`; Python floats
are modelled as exact rationals `ℚ` (the values exercised by the claims
are all exactly representable); Python `int()` truncation is modelled by
`pyTrunc`; fallible code is modelled with `Option`/`Except`.
-/

/-! ## Python string primitives -/

/-- The characters Python `str.strip()` / `\s` treat as whitespace
(ASCII fragment; the inputs in this development are ASCII). -/
def isPyWs (c : Char) : Bool :=
  c = ' ' || c = '\t' || c = '\n' || c = '\r' || c = '\x0b' || c = '\x0c'

/-- Python `str.strip()` on a character list. -/
def pyStripL (l : List Char) : List Char :=
  ((l.dropWhile isPyWs).reverse.dropWhile isPyWs).reverse

/-- Python `str.strip()`. -/
def pyStripS (s : String) : String :=
  String.mk (pyStripL s.toList)

/-- Python `str.lower()` (ASCII fragment). -/
def pyLowerL (l : List Char) : List Char := l.map Char.toLower

/-- Python `str.lower()`. -/
def pyLowerS (s : String) : String := String.mk (pyLowerL s.toList)

/-- Whether the first list is an initial segment of the second. -/
def startsWithL : List Char → List Char → Bool
  | [], _ => true
  | _ :: _, [] => false
  | a :: as, b :: bs => a == b && startsWithL as bs

/-- Python `needle in haystack` for strings: substring containment. -/
def containsSub (needle : List Char) : List Char → Bool
  | [] => startsWithL needle []
  | c :: cs => startsWithL needle (c :: cs) || containsSub needle cs

/-- ASCII decimal digit. -/
def isDig (c : Char) : Bool := '0' ≤ c && c ≤ '9'

/-- Numeric value of a digit run. -/
def digitsToNat (l : List Char) : Nat :=
  l.foldl (fun a c => a * 10 + (c.toNat - '0'.toNat)) 0

/-! ## JSON values, modelling what `json.loads` produces

Python distinguishes `int` and `float` JSON numbers; `_normalize_score`
branches on that distinction, so the model keeps it.  Floats are exact
rationals.  (`NaN`/`Infinity`, which CPython's `json` also accepts, have
no rational representation and never occur in the claims' inputs; the
modelled parser rejects them.) -/

inductive JVal where
  | jnull : JVal
  | jbool : Bool → JVal
  | jint : Int → JVal
  | jfloat : ℚ → JVal
  | jstr : String → JVal
  | jarr : List JVal → JVal
  | jobj : List (String × JVal) → JVal

/-- Model of `dict.get(k)` on a parsed JSON object.  Python keeps the *last*
occurrence of a duplicated key, hence the lookup on the reversed list. -/
def jget (kvs : List (String × JVal)) (k : String) : Option JVal :=
  kvs.reverse.lookup k

/-- Python `str(v)` rendering of a JSON value (model: used only by the
free-text coercion branches of the fit scorer; the repr of containers
and floats is approximated, the string/int/bool/None cases are exact). -/
def jvalPyStr : JVal → String
  | .jnull => "None"
  | .jbool true => "True"
  | .jbool false => "False"
  | .jint n => toString n
  | .jfloat q => toString q
  | .jstr s => s
  | .jarr _ => "[…]"
  | .jobj _ => "\x7b…\x7d"

/-! ### A recursive-descent JSON parser (model of `json.loads`) -/

/-- JSON whitespace (what `json.loads` skips between tokens). -/
def isJsonWs (c : Char) : Bool :=
  c = ' ' || c = '\t' || c = '\n' || c = '\r'

/-- Parse a JSON string body after the opening quote; returns the decoded
characters and the input after the closing quote. -/
def parseJStr : List Char → Option (List Char × List Char)
  | [] => none
  | '"' :: rest => some ([], rest)
  | '\\' :: rest =>
    match rest with
    | 'n' :: r => (parseJStr r).map (fun (s, r') => ('\n' :: s, r'))
    | 't' :: r => (parseJStr r).map (fun (s, r') => ('\t' :: s, r'))
    | 'r' :: r => (parseJStr r).map (fun (s, r') => ('\r' :: s, r'))
    | 'b' :: r => (parseJStr r).map (fun (s, r') => ('\x08' :: s, r'))
    | 'f' :: r => (parseJStr r).map (fun (s, r') => ('\x0c' :: s, r'))
    | '/' :: r => (parseJStr r).map (fun (s, r') => ('/' :: s, r'))
    | '\\' :: r => (parseJStr r).map (fun (s, r') => ('\\' :: s, r'))
    | '"' :: r => (parseJStr r).map (fun (s, r') => ('"' :: s, r'))
    | 'u' :: a :: b :: c :: d :: r =>
      if [a, b, c, d].all (fun x => isDig x || ('a' ≤ x && x ≤ 'f') || ('A' ≤ x && x ≤ 'F')) then
        let hv := fun (x : Char) =>
          if isDig x then x.toNat - '0'.toNat
          else if 'a' ≤ x && x ≤ 'f' then x.toNat - 'a'.toNat + 10
          else x.toNat - 'A'.toNat + 10
        let n := ((hv a * 16 + hv b) * 16 + hv c) * 16 + hv d
        (parseJStr r).map (fun (s, r') => (Char.ofNat n :: s, r'))
      else none
    | _ => none
  | c :: rest =>
    if c.toNat ≥ 0x20 then (parseJStr rest).map (fun (s, r') => (c :: s, r'))
    else none

/-- Parse a JSON number per the strict grammar `json.loads` uses:
`-? (0 | [1-9][0-9]*) (\.[0-9]+)? ([eE][+-]?[0-9]+)?`; an integer
literal yields `jint`, otherwise `jfloat` (exact rational model). -/
def parseJNum (cs : List Char) : Option (JVal × List Char) :=
  let (neg, cs₁) := match cs with
    | '-' :: r => (true, r)
    | _ => (false, cs)
  let ip := cs₁.takeWhile isDig
  if ip = [] then none
  else if ip.length > 1 && ip.headD '0' = '0' then none
  else
    let cs₂ := cs₁.dropWhile isDig
    let ipn : Int := digitsToNat ip
    match cs₂ with
    | '.' :: cs₃ =>
      let fp := cs₃.takeWhile isDig
      if fp = [] then none
      else
        let cs₄ := cs₃.dropWhile isDig
        let base : ℚ := (ipn : ℚ) + (digitsToNat fp : ℚ) / ((10 : ℚ) ^ fp.length)
        match cs₄ with
        | e :: cs₅ =>
          if e = 'e' || e = 'E' then
            let (eneg, cs₆) := match cs₅ with
              | '-' :: r => (true, r)
              | '+' :: r => (false, r)
              | _ => (false, cs₅)
            let ep := cs₆.takeWhile isDig
            if ep = [] then none
            else
              let q := if eneg then base / (10 : ℚ) ^ digitsToNat ep
                       else base * (10 : ℚ) ^ digitsToNat ep
              some (.jfloat (if neg then -q else q), cs₆.dropWhile isDig)
          else some (.jfloat (if neg then -base else base), cs₄)
        | [] => some (.jfloat (if neg then -base else base), [])
    | e :: cs₃ =>
      if e = 'e' || e = 'E' then
        let (eneg, cs₄) := match cs₃ with
          | '-' :: r => (true, r)
          | '+' :: r => (false, r)
          | _ => (false, cs₃)
        let ep := cs₄.takeWhile isDig
        if ep = [] then none
        else
          let q := if eneg then (ipn : ℚ) / (10 : ℚ) ^ digitsToNat ep
                   else (ipn : ℚ) * (10 : ℚ) ^ digitsToNat ep
          some (.jfloat (if neg then -q else q), cs₄.dropWhile isDig)
      else some (.jint (if neg then -ipn else ipn), cs₂)
    | [] => some (.jint (if neg then -ipn else ipn), [])

mutual

/-- Parse one JSON value (fuel-indexed recursive descent). -/
def parseJVal : Nat → List Char → Option (JVal × List Char)
  | 0, _ => none
  | fuel + 1, cs =>
    match cs.dropWhile isJsonWs with
    | [] => none
    | 'n' :: 'u' :: 'l' :: 'l' :: r => some (.jnull, r)
    | 't' :: 'r' :: 'u' :: 'e' :: r => some (.jbool true, r)
    | 'f' :: 'a' :: 'l' :: 's' :: 'e' :: r => some (.jbool false, r)
    | '"' :: r => (parseJStr r).map (fun (s, r') => (.jstr (String.mk s), r'))
    | '{' :: r =>
      match r.dropWhile isJsonWs with
      | '}' :: r' => some (.jobj [], r')
      | r' => (parseJMembers fuel r').map (fun (kvs, r'') => (.jobj kvs, r''))
    | '[' :: r =>
      match r.dropWhile isJsonWs with
      | ']' :: r' => some (.jarr [], r')
      | r' => (parseJElems fuel r').map (fun (xs, r'') => (.jarr xs, r''))
    | other => parseJNum other

/-- Parse the members of a JSON object, positioned at a key. -/
def parseJMembers : Nat → List Char → Option (List (String × JVal) × List Char)
  | 0, _ => none
  | fuel + 1, cs =>
    match cs with
    | '"' :: r =>
      match parseJStr r with
      | none => none
      | some (k, r₁) =>
        match r₁.dropWhile isJsonWs with
        | ':' :: r₂ =>
          match parseJVal fuel r₂ with
          | none => none
          | some (v, r₃) =>
            match r₃.dropWhile isJsonWs with
            | ',' :: r₄ =>
              (parseJMembers fuel (r₄.dropWhile isJsonWs)).map
                (fun (kvs, r₅) => ((String.mk k, v) :: kvs, r₅))
            | '}' :: r₄ => some ([(String.mk k, v)], r₄)
            | _ => none
        | _ => none
    | _ => none

/-- Parse the elements of a JSON array, positioned at a value. -/
def parseJElems : Nat → List Char → Option (List JVal × List Char)
  | 0, _ => none
  | fuel + 1, cs =>
    match parseJVal fuel cs with
    | none => none
    | some (v, r) =>
      match r.dropWhile isJsonWs with
      | ',' :: r₁ => (parseJElems fuel r₁).map (fun (xs, r₂) => (v :: xs, r₂))
      | ']' :: r₁ => some ([v], r₁)
      | _ => none

end

/-- Model of Python `json.loads`: parse one value and require only
whitespace to remain. -/
def jsonLoads (s : String) : Option JVal :=
  match parseJVal (s.toList.length + 1) s.toList with
  | some (v, rest) => if rest.dropWhile isJsonWs = [] then some v else none
  | none => none

/-! ## `src/nlp/job_fit.py` — `_extract_json_from_text` -/

/-- Index of the first occurrence of `c` (Python `str.find`, as `Option`). -/
def pyFindIdx (c : Char) (l : List Char) : Option Nat := l.findIdx? (· == c)

/-- Index of the last occurrence of `c` (Python `str.rfind`, as `Option`). -/
def pyRFindIdx (c : Char) (l : List Char) : Option Nat :=
  (l.reverse.findIdx? (· == c)).map (fun i => l.length - 1 - i)

/-- Python `text[start : end + 1]` for in-range indices. -/
def pySlice (l : List Char) (start stop : Nat) : List Char :=
  (l.take (stop + 1)).drop start

/-- Model of `re.search(r"(\{(?:.|\s)*\})", text)`: the leftmost `{` that
has some `}` after it, matched greedily to the last `}` of the text.
(When it exists this is exactly the first-`{`-to-last-`}` slice, since a
`}` after some `{` forces `rfind('}') > find('{')`.) -/
def regexBraceSearch (l : List Char) : Option (List Char) :=
  match pyFindIdx '{' l, pyRFindIdx '}' l with
  | some s, some e => if s < e then some (pySlice l s e) else none
  | _, _ => none

/-- Model of `_extract_json_from_text` (`src/nlp/job_fit.py`): direct
`json.loads`, then the first-`{`-to-last-`}` substring, then the regex
search for an embedded object. -/
def extractJsonFromText (text : String) : Option JVal :=
  if text = "" then none
  else
    let text := pyStripS text
    match jsonLoads text with
    | some v => some v
    | none =>
      let l := text.toList
      let viaBraces :=
        match pyFindIdx '{' l, pyRFindIdx '}' l with
        | some s, some e =>
          if s < e then jsonLoads (String.mk (pySlice l s e)) else none
        | _, _ => none
      match viaBraces with
      | some v => some v
      | none =>
        match regexBraceSearch l with
        | some cand => jsonLoads (String.mk cand)
        | none => none

/-! ## `src/nlp/job_fit.py` — `_normalize_score` -/

/-- Python `int()` applied to a float: truncation toward zero. -/
def pyTrunc (q : ℚ) : ℤ := if 0 ≤ q then ⌊q⌋ else ⌈q⌉

/-- Leftmost match of `re.search(r"[-+]?[0-9]*\.?[0-9]+", s)` attempted at
the head of the input: optional sign, greedy digit run, optional
`.`-and-digit-run — with the regex's backtracking resolved (a trailing
`.` not followed by a digit is left out; a bare `.` needs a following
digit; a bare sign matches nothing). -/
def numTokenAt (cs : List Char) : Option (List Char) :=
  match cs with
  | [] => none
  | c :: rest =>
    let (sgn, body) := if c = '-' || c = '+' then ([c], rest) else (([] : List Char), cs)
    let d1 := body.takeWhile isDig
    let after := body.dropWhile isDig
    if d1 ≠ [] then
      match after with
      | '.' :: a2 =>
        let d2 := a2.takeWhile isDig
        if d2 ≠ [] then some (sgn ++ d1 ++ '.' :: d2) else some (sgn ++ d1)
      | _ => some (sgn ++ d1)
    else
      match after with
      | '.' :: a2 =>
        let d2 := a2.takeWhile isDig
        if d2 ≠ [] then some (sgn ++ '.' :: d2) else none
      | _ => none

/-- Model of `re.search` for the number pattern: the first position with a match wins. -/
def numTokenSearch : List Char → Option (List Char)
  | [] => none
  | c :: cs =>
    match numTokenAt (c :: cs) with
    | some t => some t
    | none => numTokenSearch cs

/-- Python `float()` of a matched number token (exact rational model). -/
def decimalToRat (tok : List Char) : ℚ :=
  let (neg, body) := match tok with
    | '-' :: r => (true, r)
    | '+' :: r => (false, r)
    | _ => (false, tok)
  let ip := body.takeWhile isDig
  let rest := body.dropWhile isDig
  let fp := match rest with
    | '.' :: r => r.takeWhile isDig
    | _ => []
  let v : ℚ := (digitsToNat ip : ℚ) + (digitsToNat fp : ℚ) / (10 : ℚ) ^ fp.length
  if neg then -v else v

/-- Model of `_normalize_score` (`src/nlp/job_fit.py`).  Python's
`bool` is an `int` subclass, so JSON booleans take the integer branch. -/
def normalizeScore : JVal → ℤ
  | .jnull => 0
  | .jbool b => max 0 (min 100 (if b then 1 else 0))
  | .jint n => max 0 (min 100 n)
  | .jfloat q =>
    if 0 ≤ q ∧ q ≤ 1 then pyTrunc (q * 100)
    else pyTrunc (max 0 (min 100 q))
  | .jstr s =>
    let s₁ := (pyStripL s.toList).filter (fun c => c ≠ '%')
    match numTokenSearch s₁ with
    | none => 0
    | some tok =>
      let val := decimalToRat tok
      if 0 ≤ val ∧ val ≤ 1 then pyTrunc (val * 100)
      else pyTrunc (max 0 (min 100 val))
  | .jarr _ => 0
  | .jobj _ => 0

/-- Model of `_normalize_score(parsed.get("score"))`: a missing key is `None`. -/
def normalizeScoreOpt (o : Option JVal) : ℤ := normalizeScore (o.getD .jnull)

/-! ## `src/nlp/job_fit.py` — `evaluate_job_fit` -/

/-- The dictionary `evaluate_job_fit` returns.  `chance` and
`match_highlights` keep their raw JSON shape: the Python code only
replaces them under conditions the proofs below examine. -/
structure FitResult where
  score : ℤ
  chance : JVal
  reason : String
  match_highlights : List JVal
  recommended_email_style : String
  raw : String

/-- The deterministic failure result of `evaluate_job_fit` when no parse
strategy succeeds. -/
def fitFallback (raw_text : String) : FitResult :=
  { score := 0
    chance := .jstr "low"
    reason := "Could not parse model output."
    match_highlights := []
    recommended_email_style := "brief"
    raw := raw_text }

/-- Test for `"low"`, `"medium"` or `"high"`. -/
def isLMH : JVal → Bool
  | .jstr s => s = "low" || s = "medium" || s = "high"
  | _ => false

/-- The free-text coercion of `recommended_email_style`:
`"bullet"`→bulleted, `"brief"`/`"short"`→brief, else detailed. -/
def coerceStyle (t : String) : String :=
  let t := pyLowerS t
  if containsSub "bullet".toList t.toList then "bulleted"
  else if containsSub "brief".toList t.toList || containsSub "short".toList t.toList then "brief"
  else "detailed"

/-- The normalize-and-validate tail of `evaluate_job_fit`
(`src/nlp/job_fit.py`, after a successful parse).  `parsed` is the
parsed object's key/value list.  `reason = parsed.get("reason", "")`
followed by `.strip()` raises `AttributeError` on a non-string value, so
the result is `Except`. -/
def fitFromParsed (kvs : List (String × JVal)) (raw_text : String) : Except String FitResult :=
  let score := normalizeScoreOpt (jget kvs "score")
  let chance : JVal :=
    match (jget kvs "chance").getD (.jstr "low") with
    | .jstr s =>
      let s := pyLowerS s
      if s = "low" || s = "medium" || s = "high" then .jstr s
      else if score ≥ 75 then .jstr "high"
      else if score ≥ 40 then .jstr "medium"
      else .jstr "low"
    | v => v
  match (jget kvs "reason").getD (.jstr "") with
  | .jstr r =>
    let reason := pyStripS r
    let mh : List JVal :=
      match (jget kvs "match_highlights").getD (.jarr []) with
      | .jarr xs => xs
      | v => [.jstr (jvalPyStr v)]
    let style : String :=
      match (jget kvs "recommended_email_style").getD (.jstr "brief") with
      | .jstr s =>
        if s = "brief" || s = "detailed" || s = "bulleted" then s else coerceStyle s
      | v => coerceStyle (jvalPyStr v)
    .ok { score := score, chance := chance, reason := reason,
          match_highlights := mh, recommended_email_style := style, raw := raw_text }
  | _ => .error "AttributeError: non-string reason has no .strip"

/-- The response-handling tail of `evaluate_job_fit`: from the model's
message content (`None` → `""`) to the returned dictionary.
`parsed.get(...)` on a non-dict parse (e.g. the model answered `"5"`)
raises `AttributeError`, hence `Except`. -/
def evaluateJobFitFromResponse (content : Option String) : Except String FitResult :=
  let raw_text := pyStripS (content.getD "")
  match extractJsonFromText raw_text with
  | none => .ok (fitFallback raw_text)
  | some (.jobj kvs) => fitFromParsed kvs raw_text
  | some _ => .error "AttributeError: .get on a non-dict parse result"

/-- The user prompt `evaluate_job_fit` submits to the Summarizer
(`src/nlp/job_fit.py` lines 128–145), with the bio and the pre-joined
bullets text interpolated.  The job description is interpolated
verbatim — the code contains no truncation. -/
def buildUserPrompt (bio : String) (bulletsText : String) (jd : String) : String :=
  "Candidate profile:\nBio: " ++ bio ++ "\nBullets:\n" ++ bulletsText ++
  "\n\nJob description:\n" ++ jd ++
  "\n\nTask:\nReturn ONLY a JSON object (no explanation) with keys:\n" ++
  "- score: integer 0-100 (relevance)\n" ++
  "- chance: one of \"low\", \"medium\", or \"high\" (likelihood of shortlisting)\n" ++
  "- reason: 1-2 sentence justification using evidence from profile/job\n" ++
  "- match_highlights: array of 1-5 short strings pointing to profile lines or JD phrases that explain fit\n" ++
  "- recommended_email_style: one of \"brief\", \"detailed\", \"bulleted\"\n" ++
  "Example:\n" ++
  "\x7b\"score\": 82, \"chance\": \"high\", \"reason\": \"...\", \"match_highlights\": [\"...\"], \"recommended_email_style\": \"detailed\"\x7d\n"

/-! ## `src/nlp/job_detector.py` — `JobDetector` -/

/-- The fixed keyword set of `JobDetector.JOB_KEYWORDS`. -/
def JOB_KEYWORDS : List String :=
  ["hiring", "job", "vacancy", "opening", "position",
   "career", "opportunity", "internship"]

/-- Model of `JobDetector.is_job_post`: some keyword occurs
(case-insensitively) in the text. -/
def isJobPost (text : String) : Bool :=
  JOB_KEYWORDS.any (fun k => containsSub (pyLowerL k.toList) (pyLowerL text.toList))

/-- The `\w` class of Python `re` (ASCII fragment). -/
def isWordChar (c : Char) : Bool :=
  ('a' ≤ c && c ≤ 'z') || ('A' ≤ c && c ≤ 'Z') || isDig c || c = '_'

/-- The character class `[\w.-]` of `EMAIL_PATTERN`. -/
def isEmailChar (c : Char) : Bool := isWordChar c || c = '.' || c = '-'

/-- The `\S+` tail of `LINK_PATTERN` after a `k`-character scheme: the
greedy non-empty run of non-whitespace characters. -/
def matchUrlCore (k : Nat) (cs : List Char) : Option (List Char × List Char) :=
  let body := (cs.drop k).takeWhile (fun c => !isPyWs c)
  if body = [] then none
  else some (cs.take k ++ body, (cs.drop k).dropWhile (fun c => !isPyWs c))

/-- Match of `LINK_PATTERN = https?://\S+` (case-insensitive) anchored at
the head of the input; returns the matched characters and the rest. -/
def matchUrlAt (cs : List Char) : Option (List Char × List Char) :=
  if startsWithL "https://".toList (pyLowerL cs) then matchUrlCore 8 cs
  else if startsWithL "http://".toList (pyLowerL cs) then matchUrlCore 7 cs
  else none

/-- The largest split index `L` of the post-`@` run `dom` such that
`dom[L] = '.'` with `L ≥ 1` and a `\w` character right after — the
position the regex's backtracking settles on for `\.\w+`. -/
def lastDotSplit (dom : List Char) : Option Nat :=
  (List.range dom.length).reverse.find? (fun L =>
    decide (1 ≤ L) && (dom[L]? == some '.') && (dom[L + 1]?).any isWordChar)

/-- Match of `EMAIL_PATTERN = [\w.-]+@[\w.-]+\.\w+` anchored at the head
of the input (backtracking resolved: the local part is the maximal
`[\w.-]` run, which must be followed by `@`; the domain is the maximal
run after `@` cut at the last `.`-then-`\w` split; the tld is the
maximal `\w` run after that dot). -/
def matchEmailCore (lp rest : List Char) : Option (List Char × List Char) :=
  let dom := rest.takeWhile isEmailChar
  match lastDotSplit dom with
  | none => none
  | some L =>
    let tld := (dom.drop (L + 1)).takeWhile isWordChar
    some (lp ++ '@' :: (dom.take (L + 1) ++ tld),
          (dom.drop (L + 1)).dropWhile isWordChar ++ rest.dropWhile isEmailChar)

/-- Match of `EMAIL_PATTERN` anchored at the head of the input: the
maximal `[\w.-]` local part, which must be followed by `@`, then the
domain machinery of `matchEmailCore`. -/
def matchEmailAt (cs : List Char) : Option (List Char × List Char) :=
  let lp := cs.takeWhile isEmailChar
  if lp = [] then none
  else
    match cs.dropWhile isEmailChar with
    | '@' :: rest => matchEmailCore lp rest
    | _ => none

/-- Model of `re.findall`: scan left to right, emitting non-overlapping matches
and resuming after each match's end. -/
def findAllWith (matchAt : List Char → Option (List Char × List Char)) :
    Nat → List Char → List (List Char)
  | 0, _ => []
  | _, [] => []
  | fuel + 1, c :: cs =>
    match matchAt (c :: cs) with
    | some (m, rest) => m :: findAllWith matchAt fuel rest
    | none => findAllWith matchAt fuel cs

/-- Model of `JobDetector.extract_links`. -/
def extractLinks (text : String) : List String :=
  (findAllWith matchUrlAt text.toList.length text.toList).map String.mk

/-- Model of `JobDetector.extract_emails`. -/
def extractEmails (text : String) : List String :=
  (findAllWith matchEmailAt text.toList.length text.toList).map String.mk

/-- The `\s*[:\-]\s*(.+)` tail of the labeled-field patterns, applied
after a matched label.  `\s*` is greedy and crosses newlines; `(.+)`
then runs to the end of the line.  When only whitespace remains after
the separator, the regex backtracks `\s*` until `.+` can grab the last
non-newline (whitespace) character. -/
def matchSepGroup (cs : List Char) : Option (List Char) :=
  match cs.dropWhile isPyWs with
  | sep :: rest =>
    if sep = ':' || sep = '-' then
      match rest.dropWhile isPyWs with
      | c :: w => some ((c :: w).takeWhile (· ≠ '\n'))
      | [] =>
        match rest.reverse.find? (fun c => c ≠ '\n') with
        | some c => some [c]
        | none => none
    else none
  | [] => none

/-- Model of `re.search` for the labeled-field patterns
`(?:lbl₁|lbl₂|…)\s*[:\-]\s*(.+)` (case-insensitive) attempted at one
position: the alternatives are tried in order and a label only counts
if the separator-and-group tail also matches after it. -/
def matchLabeledAt (labels : List (List Char)) (cs : List Char) : Option (List Char) :=
  match labels with
  | [] => none
  | lbl :: ls =>
    if startsWithL lbl (pyLowerL cs) then
      match matchSepGroup (cs.drop lbl.length) with
      | some grp => some grp
      | none => matchLabeledAt ls cs
    else matchLabeledAt ls cs

/-- Model of `extract_field`: the leftmost labeled match, `.strip()`ed. -/
def extractField (labels : List String) (text : String) : Option String :=
  let rec go : List Char → Option (List Char)
    | [] => none
    | c :: cs =>
      match matchLabeledAt (labels.map (fun l => l.toList)) (c :: cs) with
      | some grp => some grp
      | none => go cs
  (go text.toList).map (fun g => String.mk (pyStripL g))

/-- The structured job info `JobDetector.parse_job` returns. -/
structure JobInfo where
  role : Option String
  company : Option String
  location : Option String
  salary : Option String
  links : List String
  emails : List String
  raw_text : String

/-- Model of `JobDetector.parse_job`. -/
def parseJob (text : String) : Option JobInfo :=
  if isJobPost text then
    some
      { role := extractField ["role", "position", "job"] text
        company := extractField ["company", "org", "organization"] text
        location := extractField ["location", "based in"] text
        salary := extractField ["salary", "ctc", "stipend"] text
        links := extractLinks text
        emails := extractEmails text
        raw_text := pyStripS text }
  else none

/-! ## `src/ingestion/whatsapp_parser.py` -/

/-- The optional am/pm marker `(?:\s?[apAP]\.?m\.?)?` of `MESSAGE_REGEX`:
an optional single whitespace, a letter in `[apAP]`, an optional dot, a
literal lowercase `m`, an optional dot.  Returns consumed characters
(possibly none — the group is optional and all its failure modes
backtrack to the empty match) and the rest. -/
def matchAmPm (cs : List Char) : List Char × List Char :=
  let core : List Char → Option (List Char × List Char) := fun l =>
    match l with
    | c :: rest =>
      if c = 'a' || c = 'p' || c = 'A' || c = 'P' then
        match rest with
        | '.' :: 'm' :: r =>
          match r with
          | '.' :: r' => some ([c, '.', 'm', '.'], r')
          | _ => some ([c, '.', 'm'], r)
        | 'm' :: r =>
          match r with
          | '.' :: r' => some ([c, 'm', '.'], r')
          | _ => some ([c, 'm'], r)
        | _ => none
      else none
    | [] => none
  match cs with
  | w :: rest =>
    if isPyWs w then
      match core rest with
      | some (m, r) => (w :: m, r)
      | none =>
        match core cs with
        | some (m, r) => (m, r)
        | none => ([], cs)
    else
      match core cs with
      | some (m, r) => (m, r)
      | none => ([], cs)
  | [] => ([], cs)

/-- Match of `\d{1,2}` immediately followed by the literal `next` (the greedy
two-digit attempt backtracks to one digit if the literal fails). -/
def digits12Then (next : Char) (cs : List Char) : Option (List Char × List Char) :=
  match cs with
  | a :: b :: c :: r =>
    if isDig a && isDig b && c = next then some ([a, b], r)
    else if isDig a && b = next then some ([a], c :: r)
    else none
  | a :: b :: r =>
    if isDig a && isDig b then none
    else if isDig a && b = next then some ([a], r)
    else none
  | _ => none

/-- The time group `\d{1,2}:\d{2}(?:\s?[apAP]\.?m\.?)?` of
`MESSAGE_REGEX`; returns the captured group text and the rest. -/
def matchTimeGroup (cs : List Char) : Option (List Char × List Char) :=
  match digits12Then ':' cs with
  | none => none
  | some (hh, rest) =>
    match rest with
    | m1 :: m2 :: r =>
      if isDig m1 && isDig m2 then
        let (mk, r') := matchAmPm r
        some (hh ++ ':' :: m1 :: m2 :: mk, r')
      else none
    | _ => none

/-- What follows the date in `MESSAGE_REGEX`:
`,?\s*"?<time>"?\s*-\s*(?P<sender>.*?):\s*(?P<msg>.*)`.  The lazy
sender group stops at the first colon of the remainder. -/
def matchAfterDate (cs : List Char) : Option (List Char × List Char × List Char) :=
  let cs := match cs with
    | ',' :: r => r
    | _ => cs
  let cs := cs.dropWhile isPyWs
  let cs := match cs with
    | '"' :: r => r
    | _ => cs
  match matchTimeGroup cs with
  | none => none
  | some (timeStr, cs₁) =>
    let cs₂ := match cs₁ with
      | '"' :: r => r
      | _ => cs₁
    match cs₂.dropWhile isPyWs with
    | '-' :: cs₃ =>
      let cs₄ := cs₃.dropWhile isPyWs
      let sender := cs₄.takeWhile (· ≠ ':')
      match cs₄.dropWhile (· ≠ ':') with
      | ':' :: cs₅ => some (timeStr, sender, cs₅.dropWhile isPyWs)
      | _ => none
    | _ => none

/-- Model of `MESSAGE_REGEX.match(line)`
(`^(\d{1,2}/\d{1,2}/\d{2,4}),?\s*"?(?P<time>…)"?\s*-\s*(?P<sender>.*?):\s*(?P<msg>.*)`):
the date group, time group, sender and message text of a message-start
line.  The year's greedy `\d{2,4}` backtracks from four digits down to
two against the remainder. -/
def lineMatch (line : String) : Option (String × String × String × String) :=
  let cs := line.toList
  match digits12Then '/' cs with
  | none => none
  | some (day, cs₁) =>
    match digits12Then '/' cs₁ with
    | none => none
    | some (month, cs₂) =>
      let yrun := cs₂.takeWhile isDig
      let tryYear : Nat → Option (String × String × String × String) := fun n =>
        if n ≤ yrun.length then
          match matchAfterDate (cs₂.drop n) with
          | some (timeStr, sender, msg) =>
            some (String.mk (day ++ '/' :: month ++ '/' :: yrun.take n),
                  String.mk timeStr, String.mk sender, String.mk msg)
          | none => none
        else none
      match tryYear 4 with
      | some r => some r
      | none =>
        match tryYear 3 with
        | some r => some r
        | none => tryYear 2

/-- A parsed chat message. -/
structure WMsg where
  timestamp : String
  sender : String
  message : String
deriving DecidableEq, Repr

/-- Zero-padded rendering of a number to (at least) `w` digits. -/
def padNum (w : Nat) (n : Nat) : String :=
  let s := toString n
  String.mk (List.replicate (w - s.length) '0') ++ s

/-- Days in a month (with leap years as `datetime` validates them). -/
def daysInMonth (year month : Nat) : Nat :=
  if month = 2 then
    if year % 4 = 0 && (year % 100 ≠ 0 || year % 400 = 0) then 29 else 28
  else if month = 4 || month = 6 || month = 9 || month = 11 then 30
  else 31

/-- Match of `\d{1,2}` of `strptime` for a value in `[lo, hi]`: the greedy
two-digit form is preferred, falling back to one digit. -/
def strpNum2 (lo hi : Nat) (cs : List Char) : Option (Nat × List Char) :=
  match cs with
  | a :: b :: r =>
    if isDig a && isDig b && lo ≤ digitsToNat [a, b] && digitsToNat [a, b] ≤ hi then
      some (digitsToNat [a, b], r)
    else if isDig a && lo ≤ digitsToNat [a] then
      some (digitsToNat [a], b :: r)
    else none
  | [a] =>
    if isDig a && lo ≤ digitsToNat [a] && digitsToNat [a] ≤ hi then
      some (digitsToNat [a], [])
    else none
  | [] => none

/-- Model of
`datetime.strptime(s, "%d/%m/%y %I:%M").isoformat(sep=' ')`
(`src/ingestion/whatsapp_parser.py` line 26): `%d` day 1–31, `%m` month
1–12, `%y` exactly two digits (00–68 ↦ 2000s, 69–99 ↦ 1900s), `%I` hour
1–12, `%M` minute 0–59; any leftover input raises
`ValueError("unconverted data remains: …")`, a non-matching field raises
`ValueError("time data … does not match format …")`, and an invalid
calendar day raises `ValueError("day is out of range for month")`. -/
def strptimeDMYIM (s : String) : Except String String :=
  let mismatch : Except String String :=
    .error ("time data '" ++ s ++ "' does not match format '%d/%m/%y %I:%M'")
  let cs := s.toList
  match strpNum2 1 31 cs with
  | none => mismatch
  | some (day, cs₁) =>
    match cs₁ with
    | '/' :: cs₂ =>
      match strpNum2 1 12 cs₂ with
      | none => mismatch
      | some (month, cs₃) =>
        match cs₃ with
        | '/' :: cs₄ =>
          match cs₄ with
          | y1 :: y2 :: cs₅ =>
            if isDig y1 && isDig y2 then
              let yy := digitsToNat [y1, y2]
              let year := if yy ≤ 68 then 2000 + yy else 1900 + yy
              match cs₅ with
              | ' ' :: cs₆ =>
                match strpNum2 1 12 cs₆ with
                | none => mismatch
                | some (hour, cs₇) =>
                  match cs₇ with
                  | ':' :: cs₈ =>
                    match strpNum2 0 59 cs₈ with
                    | none => mismatch
                    | some (minute, cs₉) =>
                      if cs₉ ≠ [] then
                        .error ("unconverted data remains: " ++ String.mk cs₉)
                      else if day > daysInMonth year month then
                        .error "day is out of range for month"
                      else
                        .ok (padNum 4 year ++ "-" ++ padNum 2 month ++ "-" ++ padNum 2 day
                             ++ " " ++ padNum 2 hour ++ ":" ++ padNum 2 minute ++ ":00")
                  | _ => mismatch
              | _ => mismatch
            else mismatch
          | _ => mismatch
        | _ => mismatch
    | _ => mismatch

/-- The line loop of `parse_whatsapp_chat` (`src/ingestion/whatsapp_parser.py`):
a matching line flushes the buffered message and starts a new buffer
(an unparseable timestamp aborts the whole parse with the `ValueError`);
a non-matching line is appended (stripped, after a newline) to the
buffered message, or silently dropped when no buffer exists yet. -/
def parseChatGo : List String → Option WMsg → List WMsg → Except String (List WMsg)
  | [], buffer, acc =>
    match buffer with
    | some b => .ok (acc ++ [b])
    | none => .ok acc
  | line :: rest, buffer, acc =>
    match lineMatch line with
    | some (dateStr, timeStr, sender, msg) =>
      let acc := match buffer with
        | some b => acc ++ [b]
        | none => acc
      match strptimeDMYIM (dateStr ++ " " ++ timeStr) with
      | .error e => .error e
      | .ok ts => parseChatGo rest (some ⟨ts, sender, pyStripS msg⟩) acc
    | none =>
      match buffer with
      | some b =>
        parseChatGo rest (some { b with message := b.message ++ "\n" ++ pyStripS line }) acc
      | none => parseChatGo rest none acc

/-- Model of `parse_whatsapp_chat`, over the file's lines (each with its
trailing newline already removed, as `line.rstrip('\n')` does). -/
def parseChat (lines : List String) : Except String (List WMsg) :=
  parseChatGo lines none []

/-! ## `src/orchestrator.py` — the per-message decision slice

The orchestrator's `main` loop, for a detected job, runs fit analysis
(lines 274–307) and then dispatches (lines 309–358).  The model below
captures exactly that decision logic: the apply gate, the fit-failure
fallback, the channel choice, and the skipped-counter increments.
Side-effecting collaborators (mailer, form filler) are recorded as
dispatch attempts. -/

/-- Python truthiness of an optional string (`None` and `""` are falsy). -/
def pyTruthy : Option String → Bool
  | none => false
  | some s => s ≠ ""

/-- Model of `fit_chance in ["medium", "high"]` — a Python `in` check by equality,
false for any non-string value. -/
def isMedHigh : JVal → Bool
  | .jstr s => s = "medium" || s = "high"
  | _ => false

/-- A dispatch attempt made by the orchestrator. -/
inductive DispatchAction where
  | sendEmail : String → DispatchAction
  | fillForm : String → DispatchAction
deriving DecidableEq, Repr

/-- Outcome of the decision slice for one detected job. -/
structure StepResult where
  shouldApply : Bool
  actions : List DispatchAction
  skippedDelta : Nat
deriving DecidableEq, Repr

/-- Lines 309–358: `if emails and should_apply: … elif m.get("form_url")
and should_apply: … else: skipped_count += 1`.  One send attempt is made
per extracted address (each inside its own `try`, so attempts never
abort the loop). -/
def dispatchStep (shouldApply : Bool) (emails : List String) (formUrl : Option String) :
    List DispatchAction × Nat :=
  if emails ≠ [] && shouldApply then (emails.map DispatchAction.sendEmail, 0)
  else if pyTruthy formUrl && shouldApply then ([DispatchAction.fillForm (formUrl.getD "")], 0)
  else ([], 1)

/-- Lines 274–358 for one detected job: the fit gate
(`should_apply = fit_score >= 30 or fit_chance in ["medium", "high"]`,
below it `skipped_count += 1; continue`), the `except` fallback that
forces `should_apply = True`, and the dispatch. -/
def orchestratorStep (fit : Except String FitResult) (emails : List String)
    (formUrl : Option String) : StepResult :=
  match fit with
  | .ok f =>
    let sa := decide (f.score ≥ 30) || isMedHigh f.chance
    if sa then
      let (acts, sk) := dispatchStep sa emails formUrl
      { shouldApply := sa, actions := acts, skippedDelta := sk }
    else
      { shouldApply := false, actions := [], skippedDelta := 1 }
  | .error _ =>
    let (acts, sk) := dispatchStep true emails formUrl
    { shouldApply := true, actions := acts, skippedDelta := sk }

/-! ## `src/enrichment/enrichment.py` and the orchestrator's gating -/

/-- The `UserProfile` fields enrichment reads (`src/models/models.py`).
`resume_bytes` is an opaque payload handed to the PDF-reading
collaborator. -/
structure PUserProfile where
  profile_context : Option String
  resume_bytes : Option String
  resume_link : Option String
  github : Option String
  linkedin : Option String
  twitter : Option String
  past_work_links : Option String
deriving DecidableEq, Repr

/-- The `Company` fields enrichment reads. -/
structure PCompany where
  company_context : Option String
  website : Option String
  linkedin : Option String
  twitter : Option String
deriving DecidableEq, Repr

/-- Model of `_collect_user_sources`: resume text, resume link, each
social handle, each past-work link — each fetched through a collaborator
(`scrape : url → text`, `readResume : bytes → text`, failures are `""`)
and kept only when non-empty.  Also returns the number of `scrape_url`
calls made. -/
def collectUserSources (scrape : String → String) (readResume : String → String)
    (u : PUserProfile) : List String × Nat :=
  let resumeSrc :=
    if pyTruthy u.resume_bytes then
      let txt := readResume (u.resume_bytes.getD "")
      if txt ≠ "" then ["[resume]\n" ++ txt] else []
    else []
  let (linkSrc, linkCalls) :=
    if pyTruthy u.resume_link then
      let scraped := scrape (u.resume_link.getD "")
      (if scraped ≠ "" then ["[resume_link] " ++ scraped] else [], 1)
    else ([], 0)
  let handleStep : Option String → List String × Nat := fun h =>
    if pyTruthy h then
      let scraped := scrape (h.getD "")
      (if scraped ≠ "" then ["[social:" ++ h.getD "" ++ "] " ++ scraped] else [], 1)
    else ([], 0)
  let (g, gc) := handleStep u.github
  let (li, lic) := handleStep u.linkedin
  let (tw, twc) := handleStep u.twitter
  let pastLinks :=
    if pyTruthy u.past_work_links then
      (((u.past_work_links.getD "").splitOn ",").map pyStripS).filter (· ≠ "")
    else []
  let pastSrc := pastLinks.foldr
    (fun link acc =>
      let scraped := scrape link
      (if scraped ≠ "" then ["[past_work:" ++ link ++ "] " ++ scraped] else []) ++ acc) []
  (resumeSrc ++ linkSrc ++ g ++ li ++ tw ++ pastSrc,
   linkCalls + gc + lic + twc + pastLinks.length)

/-- Model of `_collect_company_sources`. -/
def collectCompanySources (scrape : String → String) (c : PCompany) : List String × Nat :=
  let (w, wc) :=
    if pyTruthy c.website then
      let scraped := scrape (c.website.getD "")
      (if scraped ≠ "" then ["[website:" ++ c.website.getD "" ++ "] " ++ scraped] else [], 1)
    else ([], 0)
  let handleStep : Option String → List String × Nat := fun h =>
    if pyTruthy h then
      let scraped := scrape (h.getD "")
      (if scraped ≠ "" then ["[social:" ++ h.getD "" ++ "] " ++ scraped] else [], 1)
    else ([], 0)
  let (li, lic) := handleStep c.linkedin
  let (tw, twc) := handleStep c.twitter
  (w ++ li ++ tw, wc + lic + twc)

/-- Outcome of one enrichment call: the (possibly updated) entity, the
returned string, and how many fetch / summarize collaborator calls were
made. -/
structure EnrichOutcome (α : Type) where
  entity : α
  ret : String
  fetchCalls : Nat
  summarizeCalls : Nat
deriving DecidableEq, Repr

/-- Model of `enrich_user_profile` (`src/enrichment/enrichment.py`
lines 75–97): collect sources; with none, return the cached context
(`user.profile_context or ""`) leaving the profile untouched; otherwise
summarize the joined sources (`analyze : text → json-string`) and store
the result as the new context. -/
def enrichUserProfile (scrape readResume analyze : String → String)
    (u : PUserProfile) : EnrichOutcome PUserProfile :=
  let (sources, calls) := collectUserSources scrape readResume u
  if sources = [] then
    { entity := u, ret := u.profile_context.getD "", fetchCalls := calls, summarizeCalls := 0 }
  else
    let result := analyze (String.intercalate "\n\n" sources)
    { entity := { u with profile_context := some result }, ret := result,
      fetchCalls := calls, summarizeCalls := 1 }

/-- Model of `enrich_company` (lines 100–120). -/
def enrichCompany (scrape analyze : String → String) (c : PCompany) : EnrichOutcome PCompany :=
  let (sources, calls) := collectCompanySources scrape c
  if sources = [] then
    { entity := c, ret := c.company_context.getD "", fetchCalls := calls, summarizeCalls := 0 }
  else
    let result := analyze (String.intercalate "\n\n" sources)
    { entity := { c with company_context := some result }, ret := result,
      fetchCalls := calls, summarizeCalls := 1 }

/-- The orchestrator's profile-enrichment step (`src/orchestrator.py`
lines 158–170): `if not profile.profile_context: enrich_user_profile(…)`,
otherwise skip.  Returns the resulting profile and the total number of
collaborator calls made. -/
def orchEnrichUser (scrape readResume analyze : String → String)
    (u : PUserProfile) : PUserProfile × Nat :=
  if pyTruthy u.profile_context then (u, 0)
  else
    let o := enrichUserProfile scrape readResume analyze u
    (o.entity, o.fetchCalls + o.summarizeCalls)

/-- The orchestrator's company-enrichment step (lines 255–269) for an
existing company record: `if company and not company.company_context:
enrich_company(…)`, otherwise skip. -/
def orchEnrichCompany (scrape analyze : String → String) (c : PCompany) : PCompany × Nat :=
  if pyTruthy c.company_context then (c, 0)
  else
    let o := enrichCompany scrape analyze c
    (o.entity, o.fetchCalls + o.summarizeCalls)

/-! ## Shape predicates for the extraction patterns -/

/-- Full match of `LINK_PATTERN = https?://\S+` (case-insensitive): a
scheme whose lowercase form is `https://` or `http://`, followed by a
non-empty run of non-whitespace characters. -/
def UrlShaped (m : List Char) : Prop :=
  ∃ scheme body, m = scheme ++ body ∧
    (pyLowerL scheme = "https://".toList ∨ pyLowerL scheme = "http://".toList) ∧
    body ≠ [] ∧ ∀ c ∈ body, isPyWs c = false

/-- Full match of `EMAIL_PATTERN = [\w.-]+@[\w.-]+\.\w+`: a non-empty
`[\w.-]` local part, `@`, a non-empty `[\w.-]` domain part, a dot, and a
non-empty `\w` tail. -/
def EmailShaped (m : List Char) : Prop :=
  ∃ lp x w, m = lp ++ '@' :: (x ++ '.' :: w) ∧
    lp ≠ [] ∧ x ≠ [] ∧ w ≠ [] ∧
    (∀ c ∈ lp, isEmailChar c = true) ∧ (∀ c ∈ x, isEmailChar c = true) ∧
    (∀ c ∈ w, isWordChar c = true)

/-! # Claims -/

/-- **C3.** For every detected job with a `FitResult`, the orchestrator
applies exactly when `fit.score >= 30` or `fit.chance` is `"medium"` or
`"high"`; below the gate the skipped counter is incremented and no
dispatch action (no email send, no form fill) occurs for that message. -/
theorem C3_apply_gate (f : FitResult) (emails : List String) (formUrl : Option String) :
    ((orchestratorStep (.ok f) emails formUrl).shouldApply
        = (decide (f.score ≥ 30) || isMedHigh f.chance))
    ∧ (¬ (f.score ≥ 30 ∨ isMedHigh f.chance = true) →
        (orchestratorStep (.ok f) emails formUrl).actions = []
        ∧ (orchestratorStep (.ok f) emails formUrl).skippedDelta = 1) := by
  constructor
  · by_cases h : (decide (f.score ≥ 30) || isMedHigh f.chance) = true
    · simp [orchestratorStep, h]
    · simp only [Bool.not_eq_true] at h
      simp [orchestratorStep, h]
  · intro h
    have hb : (decide (f.score ≥ 30) || isMedHigh f.chance) = false := by
      rcases Bool.eq_false_or_eq_true (decide (f.score ≥ 30) || isMedHigh f.chance) with hh | hh
      · rcases Bool.or_eq_true_iff.mp hh with h1 | h1
        · exact absurd (Or.inl (of_decide_eq_true h1)) h
        · exact absurd (Or.inr h1) h
      · exact hh
    simp [orchestratorStep, hb]

/-- Witness for **C3** at concrete inputs: a score-10/"low" fit is
skipped with no dispatch, and the gate value for a score-85 fit with one
email is `true`. -/
theorem C3_apply_gate_witness :
    ((orchestratorStep (.ok ⟨10, .jstr "low", "", [], "brief", ""⟩) ["hr@acme.io"] none).actions = []
      ∧ (orchestratorStep (.ok ⟨10, .jstr "low", "", [], "brief", ""⟩) ["hr@acme.io"] none).skippedDelta = 1)
    ∧ (orchestratorStep (.ok ⟨85, .jstr "high", "", [], "brief", ""⟩) ["hr@acme.io"] none).shouldApply
        = (decide ((85 : ℤ) ≥ 30) || isMedHigh (.jstr "high")) :=
  ⟨(C3_apply_gate ⟨10, .jstr "low", "", [], "brief", ""⟩ ["hr@acme.io"] none).2 (by decide),
   (C3_apply_gate ⟨85, .jstr "high", "", [], "brief", ""⟩ ["hr@acme.io"] none).1⟩

/-- **C5.** For every job that passes the apply gate, channel selection
follows the priority order: with one or more extracted emails, the email
channel is used with one send attempt per extracted address; otherwise,
with a form URL on the message, the form channel is used; otherwise no
dispatch happens and the message is counted as skipped. -/
theorem C5_channel_priority (f : FitResult) (emails : List String) (formUrl : Option String)
    (hgate : f.score ≥ 30 ∨ isMedHigh f.chance = true) :
    (emails ≠ [] →
      (orchestratorStep (.ok f) emails formUrl).actions = emails.map DispatchAction.sendEmail
      ∧ (orchestratorStep (.ok f) emails formUrl).skippedDelta = 0)
    ∧ (emails = [] → pyTruthy formUrl = true →
      (orchestratorStep (.ok f) emails formUrl).actions = [DispatchAction.fillForm (formUrl.getD "")]
      ∧ (orchestratorStep (.ok f) emails formUrl).skippedDelta = 0)
    ∧ (emails = [] → pyTruthy formUrl = false →
      (orchestratorStep (.ok f) emails formUrl).actions = []
      ∧ (orchestratorStep (.ok f) emails formUrl).skippedDelta = 1) := by
  have hb : (decide (f.score ≥ 30) || isMedHigh f.chance) = true := by
    rcases hgate with h | h
    · exact Bool.or_eq_true_iff.mpr (Or.inl (decide_eq_true h))
    · exact Bool.or_eq_true_iff.mpr (Or.inr h)
  refine ⟨fun he => ?_, fun he hf => ?_, fun he hf => ?_⟩
  · simp [orchestratorStep, hb, dispatchStep, he]
  · simp [orchestratorStep, hb, dispatchStep, he, hf]
  · simp [orchestratorStep, hb, dispatchStep, he, hf]

/-- Witness for **C5**: a score-85 fit with one email produces exactly
one send attempt; with no email and no form URL the job is skipped. -/
theorem C5_channel_priority_witness :
    ((orchestratorStep (.ok ⟨85, .jstr "high", "", [], "brief", ""⟩) ["hr@acme.io"] none).actions
        = [DispatchAction.sendEmail "hr@acme.io"]
      ∧ (orchestratorStep (.ok ⟨85, .jstr "high", "", [], "brief", ""⟩) ["hr@acme.io"] none).skippedDelta = 0)
    ∧ ((orchestratorStep (.ok ⟨85, .jstr "high", "", [], "brief", ""⟩) [] none).actions = []
      ∧ (orchestratorStep (.ok ⟨85, .jstr "high", "", [], "brief", ""⟩) [] none).skippedDelta = 1) :=
  ⟨(C5_channel_priority ⟨85, .jstr "high", "", [], "brief", ""⟩ ["hr@acme.io"] none
      (Or.inl (by decide))).1 (by decide),
   ((C5_channel_priority ⟨85, .jstr "high", "", [], "brief", ""⟩ [] none
      (Or.inl (by decide))).2.2 rfl rfl)⟩

/-- **C10.** If `evaluate_job_fit` raises for a detected job, the
orchestrator sets `should_apply` to `true` and proceeds to dispatch the
application anyway — the step behaves exactly like one whose fit passed
the gate, so a fit-scoring failure never causes the job to be skipped by
the gate. -/
theorem C10_fit_failure_still_applies (e : String) (emails : List String)
    (formUrl : Option String) :
    (orchestratorStep (.error e) emails formUrl).shouldApply = true
    ∧ orchestratorStep (.error e) emails formUrl
        = orchestratorStep (.ok ⟨100, .jstr "high", "", [], "brief", ""⟩) emails formUrl := by
  constructor
  · simp [orchestratorStep]
  · simp [orchestratorStep, isMedHigh]

/-- **C8.** For every entity (profile or company) with no available
sources, enrichment returns the previously cached context (`… or ""`)
unchanged as an idempotent no-op, not an error, and makes no summarize
call; and through the orchestrator's cached-context gate, enriching an
entity whose context is already non-null leaves it unchanged and makes
no collaborator calls at all. -/
theorem C8_enrich_idempotent (scrape readResume analyze : String → String)
    (u : PUserProfile) (c : PCompany) :
    ((collectUserSources scrape readResume u).1 = [] →
      (enrichUserProfile scrape readResume analyze u).entity = u
      ∧ (enrichUserProfile scrape readResume analyze u).ret = u.profile_context.getD ""
      ∧ (enrichUserProfile scrape readResume analyze u).summarizeCalls = 0)
    ∧ (pyTruthy u.profile_context = true →
      orchEnrichUser scrape readResume analyze u = (u, 0))
    ∧ ((collectCompanySources scrape c).1 = [] →
      (enrichCompany scrape analyze c).entity = c
      ∧ (enrichCompany scrape analyze c).ret = c.company_context.getD ""
      ∧ (enrichCompany scrape analyze c).summarizeCalls = 0)
    ∧ (pyTruthy c.company_context = true →
      orchEnrichCompany scrape analyze c = (c, 0)) := by
  refine ⟨fun hu => ?_, fun hu => ?_, fun hc => ?_, fun hc => ?_⟩
  · rcases hcu : collectUserSources scrape readResume u with ⟨s, n⟩
    rw [hcu] at hu
    simp only at hu
    simp [enrichUserProfile, hcu, hu]
  · simp [orchEnrichUser, hu]
  · rcases hcc : collectCompanySources scrape c with ⟨s, n⟩
    rw [hcc] at hc
    simp only at hc
    simp [enrichCompany, hcc, hc]
  · simp [orchEnrichCompany, hc]

/-- Witness for **C8**: a profile with a cached context and no links at
all — enrichment is a no-op, and the orchestrator's step makes zero
collaborator calls. -/
theorem C8_enrich_idempotent_witness :
    ((enrichUserProfile (fun _ => "page") (fun _ => "pdf") (fun _ => "summary")
        ⟨some "ctx", none, none, none, none, none, none⟩).entity
      = ⟨some "ctx", none, none, none, none, none, none⟩
      ∧ (enrichUserProfile (fun _ => "page") (fun _ => "pdf") (fun _ => "summary")
        ⟨some "ctx", none, none, none, none, none, none⟩).ret
      = (some "ctx" : Option String).getD ""
      ∧ (enrichUserProfile (fun _ => "page") (fun _ => "pdf") (fun _ => "summary")
        ⟨some "ctx", none, none, none, none, none, none⟩).summarizeCalls = 0)
    ∧ orchEnrichUser (fun _ => "page") (fun _ => "pdf") (fun _ => "summary")
        ⟨some "ctx", none, none, none, none, none, none⟩
      = (⟨some "ctx", none, none, none, none, none, none⟩, 0)
    ∧ orchEnrichCompany (fun _ => "page") (fun _ => "summary")
        ⟨some "cctx", none, none, none⟩
      = (⟨some "cctx", none, none, none⟩, 0) :=
  ⟨(C8_enrich_idempotent (fun _ => "page") (fun _ => "pdf") (fun _ => "summary")
      ⟨some "ctx", none, none, none, none, none, none⟩ ⟨some "cctx", none, none, none⟩).1 rfl,
   (C8_enrich_idempotent (fun _ => "page") (fun _ => "pdf") (fun _ => "summary")
      ⟨some "ctx", none, none, none, none, none, none⟩ ⟨some "cctx", none, none, none⟩).2.1
      (by decide),
   (C8_enrich_idempotent (fun _ => "page") (fun _ => "pdf") (fun _ => "summary")
      ⟨some "ctx", none, none, none, none, none, none⟩ ⟨some "cctx", none, none, none⟩).2.2.2
      (by decide)⟩

/-- **C9, counterexample.** The claim asserts the text submitted to the
Summarizer is bounded in length independently of the job description.
`evaluate_job_fit` interpolates `job_description` into the prompt with
no truncation, so no such bound exists. -/
theorem C9_counterexample :
    ¬ ∃ B : ℕ, ∀ jd : String, (buildUserPrompt "" "" jd).length ≤ B := by
  rintro ⟨B, h⟩
  have hlen := h (String.mk (List.replicate (B + 1) 'a'))
  have hmk : (String.mk (List.replicate (B + 1) 'a')).length = B + 1 := by
    simp [String.length]
  simp only [buildUserPrompt, String.length_append, hmk] at hlen
  omega

/-- A middle component of a string append is an infix of its
character list. -/
theorem strInfixMiddle (x y z : String) : y.toList <:+: (x ++ y ++ z).toList :=
  ⟨x.toList, z.toList, by simp [String.toList, String.data_append]⟩

/-- **C9, amended.** The prompt submitted to the Summarizer embeds
`job_description` verbatim and untruncated: it occurs as a contiguous
substring, and the prompt's length is exactly the empty-description
prompt's length plus the description's length. -/
theorem C9_amended_no_truncation (bio bulletsText jd : String) :
    jd.toList <:+: (buildUserPrompt bio bulletsText jd).toList
    ∧ (buildUserPrompt bio bulletsText jd).length
        = (buildUserPrompt bio bulletsText "").length + jd.length := by
  constructor
  · have hEq : buildUserPrompt bio bulletsText jd
        = ("Candidate profile:\nBio: " ++ bio ++ "\nBullets:\n" ++ bulletsText
            ++ "\n\nJob description:\n") ++ jd
          ++ ("\n\nTask:\nReturn ONLY a JSON object (no explanation) with keys:\n"
            ++ "- score: integer 0-100 (relevance)\n"
            ++ "- chance: one of \"low\", \"medium\", or \"high\" (likelihood of shortlisting)\n"
            ++ "- reason: 1-2 sentence justification using evidence from profile/job\n"
            ++ "- match_highlights: array of 1-5 short strings pointing to profile lines or JD phrases that explain fit\n"
            ++ "- recommended_email_style: one of \"brief\", \"detailed\", \"bulleted\"\n"
            ++ "Example:\n"
            ++ "\x7b\"score\": 82, \"chance\": \"high\", \"reason\": \"...\", \"match_highlights\": [\"...\"], \"recommended_email_style\": \"detailed\"\x7d\n") := by
      simp only [buildUserPrompt, String.append_assoc]
    rw [hEq]
    exact strInfixMiddle _ _ _
  · simp [buildUserPrompt, String.length_append]
    omega

/-- **C6.** The claim says the chat parser accepts 12-hour times with
optional am/pm markers.  `MESSAGE_REGEX` indeed captures an optional
marker into the time group, but the timestamp is then parsed with
`strptime(…, "%d/%m/%y %I:%M")`, whose format has no `%p`: any line
carrying a marker raises `ValueError("unconverted data remains: …")`
and aborts the whole parse.  The same line without the marker parses
fine (the repository's own test input), so the `%p`-less format string
is the slip. -/
theorem C6_ampm_marker_breaks_parse :
    parseChat ["24/08/25, 10:15 am - Jane Doe: Hiring devs"]
      = .error "unconverted data remains:  am"
    ∧ parseChat ["24/08/25, 10:15 - Jane Doe: Hiring for Backend Dev. Email us."]
      = .ok [⟨"2025-08-24 10:15:00", "Jane Doe", "Hiring for Backend Dev. Email us."⟩] :=
  ⟨rfl, rfl⟩

/-- **C7.** The claim (and `evaluate_job_fit`'s own docstring) says the
returned `chance` is always one of low/medium/high, with other
collaborator values replaced by a score-derived bucket.  The code only
normalizes *string* values: a non-string `chance` (here the number `7`,
with score 50) is passed through unchanged, so the returned `chance` is
`7`, not one of the three buckets (the score-derived bucket would have
been `"medium"`). -/
theorem C7_nonstring_chance_passthrough :
    (evaluateJobFitFromResponse (some "\x7b\"score\": 50, \"chance\": 7\x7d")).toOption.map
        FitResult.chance = some (.jint 7)
    ∧ isLMH (.jint 7) = false
    ∧ (evaluateJobFitFromResponse (some "\x7b\"score\": 50, \"chance\": 7\x7d")).toOption.map
        FitResult.score = some 50 :=
  ⟨rfl, rfl, rfl⟩

/-- **C1, counterexample.** The claim says the fallback's `raw` field
equals the *verbatim* model text.  `evaluate_job_fit` strips the model
text first (`(… or "").strip()`), so for the unparseable response
`" not json "` the stored `raw` is `"not json"`, not the verbatim text. -/
theorem C1_counterexample_raw_stripped :
    (evaluateJobFitFromResponse (some " not json ")).toOption.map FitResult.raw
      = some "not json"
    ∧ "not json" ≠ " not json " :=
  ⟨rfl, by decide⟩

/-- **C1, amended.** For every Summarizer response that no strategy of
`_extract_json_from_text` can parse, `evaluate_job_fit` returns — never
raises — the deterministic failure result: score 0, chance `"low"`,
reason `"Could not parse model output."`, no highlights, style
`"brief"`, with `raw` equal to the whitespace-stripped model text. -/
theorem C1_unparseable_fallback (content : String)
    (h : (extractJsonFromText (pyStripS content)).isNone = true) :
    evaluateJobFitFromResponse (some content) = .ok (fitFallback (pyStripS content)) := by
  have hx : extractJsonFromText (pyStripS content) = none := Option.isNone_iff_eq_none.mp h
  simp only [evaluateJobFitFromResponse, Option.getD_some, hx]

/-- Witness for **C1** at a concrete unparseable response. -/
theorem C1_unparseable_fallback_witness :
    (extractJsonFromText (pyStripS "I cannot produce JSON here.")).isNone = true
    ∧ evaluateJobFitFromResponse (some "I cannot produce JSON here.")
        = .ok (fitFallback (pyStripS "I cannot produce JSON here.")) :=
  ⟨rfl, C1_unparseable_fallback "I cannot produce JSON here." rfl⟩

/-- Python `int()` of a nonnegative value is nonnegative. -/
theorem pyTrunc_nonneg {q : ℚ} (h : 0 ≤ q) : 0 ≤ pyTrunc q := by
  simp only [pyTrunc, if_pos h]
  exact Int.floor_nonneg.mpr h

/-- Python `int()` of a value in `[0, 100]` is at most 100. -/
theorem pyTrunc_le100 {q : ℚ} (h0 : 0 ≤ q) (h : q ≤ 100) : pyTrunc q ≤ 100 := by
  simp only [pyTrunc, if_pos h0]
  have hm := Int.floor_mono h
  simpa using hm

/-- Python `int()` of a nonpositive value is nonpositive. -/
theorem pyTrunc_nonpos {q : ℚ} (h : q ≤ 0) : pyTrunc q ≤ 0 := by
  by_cases h0 : 0 ≤ q
  · have hz : q = 0 := le_antisymm h h0
    simp [pyTrunc, hz]
  · simp only [pyTrunc, if_neg h0]
    exact Int.ceil_le.mpr (by exact_mod_cast h)

/-- The float/parsed-number branch of `_normalize_score` stays in
`[0, 100]` for every rational value. -/
theorem normFloatBranch_bounds (val : ℚ) :
    0 ≤ (if 0 ≤ val ∧ val ≤ 1 then pyTrunc (val * 100) else pyTrunc (max 0 (min 100 val)))
    ∧ (if 0 ≤ val ∧ val ≤ 1 then pyTrunc (val * 100) else pyTrunc (max 0 (min 100 val))) ≤ 100 := by
  by_cases h : 0 ≤ val ∧ val ≤ 1
  · rw [if_pos h]
    have h1 : 0 ≤ val * 100 := mul_nonneg h.1 (by norm_num)
    have h2 : val * 100 ≤ 100 := by nlinarith [h.2]
    exact ⟨pyTrunc_nonneg h1, pyTrunc_le100 h1 h2⟩
  · rw [if_neg h]
    have h1 : 0 ≤ max 0 (min 100 val) := le_max_left _ _
    have h2 : max 0 (min 100 val) ≤ 100 := max_le (by norm_num) (min_le_left _ _)
    exact ⟨pyTrunc_nonneg h1, pyTrunc_le100 h1 h2⟩

/-- **C2.** `_normalize_score` always returns an integer in `[0, 100]`;
floats at most 1 are treated as 0–1 fractions scaled by 100 (and, like
every branch, clamped into `[0, 100]` — for floats in `[0, 1]` the
clamp is a no-op, matching the code's direct `int(raw * 100)`);
`50.0 ↦ 50`, `0.5 ↦ 50`, `"85%" ↦ 85`, `"not a number" ↦ 0`; and
normalizing an already-clamped integer returns that same integer. -/
theorem C2_normalize_score :
    (∀ v : JVal, 0 ≤ normalizeScore v ∧ normalizeScore v ≤ 100)
    ∧ (∀ q : ℚ, q ≤ 1 →
        normalizeScore (.jfloat q) = max 0 (min 100 (pyTrunc (q * 100))))
    ∧ normalizeScore (.jfloat 50) = 50
    ∧ normalizeScore (.jfloat (1/2)) = 50
    ∧ normalizeScore (.jstr "85%") = 85
    ∧ normalizeScore (.jstr "not a number") = 0
    ∧ (∀ n : ℤ, 0 ≤ n → n ≤ 100 → normalizeScore (.jint n) = n) := by
  refine ⟨?_, ?_, ?_, ?_, ?_, ?_, ?_⟩
  · intro v
    cases v with
    | jnull => exact ⟨by decide, by decide⟩
    | jbool b => cases b <;> exact ⟨by decide, by decide⟩
    | jint n =>
      simp only [normalizeScore]
      exact ⟨le_max_left _ _, max_le (by norm_num) (min_le_left _ _)⟩
    | jfloat q =>
      simp only [normalizeScore]
      exact normFloatBranch_bounds q
    | jstr s =>
      simp only [normalizeScore]
      cases h : numTokenSearch ((pyStripL s.toList).filter (fun c => c ≠ '%')) with
      | none => exact ⟨le_refl 0, by norm_num⟩
      | some tok => exact normFloatBranch_bounds (decimalToRat tok)
    | jarr xs => exact ⟨le_refl 0, by norm_num [normalizeScore]⟩
    | jobj kvs => exact ⟨le_refl 0, by norm_num [normalizeScore]⟩
  · intro q hq
    simp only [normalizeScore]
    by_cases h0 : 0 ≤ q
    · rw [if_pos ⟨h0, hq⟩]
      have h1 : 0 ≤ q * 100 := mul_nonneg h0 (by norm_num)
      have h2 : q * 100 ≤ 100 := by nlinarith
      rw [min_eq_right (pyTrunc_le100 h1 h2), max_eq_right (pyTrunc_nonneg h1)]
    · rw [if_neg (fun hc => h0 hc.1)]
      have hq0 : q ≤ 0 := le_of_not_le h0
      have hmin : min 100 q = q := min_eq_right (by linarith)
      have hmax : max 0 q = 0 := max_eq_left hq0
      rw [hmin, hmax]
      have ht : pyTrunc (q * 100) ≤ 0 := pyTrunc_nonpos (by nlinarith)
      rw [min_eq_right (by linarith : pyTrunc (q * 100) ≤ 100),
          max_eq_left ht]
      simp [pyTrunc]
  · simp only [normalizeScore]
    rw [if_neg (by norm_num : ¬ ((0:ℚ) ≤ 50 ∧ (50:ℚ) ≤ 1))]
    norm_num [pyTrunc, min_def, max_def]
  · simp only [normalizeScore]
    rw [if_pos (by norm_num : (0:ℚ) ≤ 1/2 ∧ (1/2:ℚ) ≤ 1)]
    norm_num [pyTrunc]
  · have hs : numTokenSearch ((pyStripL "85%".toList).filter (fun c => c ≠ '%'))
        = some ['8', '5'] := by decide
    have hv : decimalToRat ['8', '5'] = 85 := by
      have h : decimalToRat ['8', '5'] = ((85 : ℕ) : ℚ) + ((0 : ℕ) : ℚ) / (10 : ℚ) ^ (0 : ℕ) := rfl
      rw [h]; norm_num
    simp only [normalizeScore, hs, hv]
    rw [if_neg (by norm_num : ¬ ((0:ℚ) ≤ 85 ∧ (85:ℚ) ≤ 1))]
    norm_num [pyTrunc, min_def, max_def]
  · rfl
  · intro n h0 h100
    simp only [normalizeScore]
    rw [min_eq_right h100, max_eq_right h0]

/-- Witness for **C2** at concrete inputs: the fraction treatment of the
negative float `-1/2` (clamped to 0) and idempotence on the integer 73. -/
theorem C2_normalize_score_witness :
    ((-1/2 : ℚ) ≤ 1 ∧ normalizeScore (.jfloat (-1/2)) = max 0 (min 100 (pyTrunc ((-1/2) * 100))))
    ∧ ((0:ℤ) ≤ 73 ∧ (73:ℤ) ≤ 100 ∧ normalizeScore (.jint 73) = 73) :=
  ⟨⟨by norm_num, C2_normalize_score.2.1 (-1/2) (by norm_num)⟩,
   ⟨by norm_num, by norm_num, C2_normalize_score.2.2.2.2.2.2 73 (by norm_num) (by norm_num)⟩⟩

/-- A successful `startsWithL` pins down the same-length head of the
second list. -/
theorem startsWithL_take {n h : List Char} (hs : startsWithL n h = true) :
    h.take n.length = n ∧ n.length ≤ h.length := by
  induction n generalizing h with
  | nil => simp
  | cons a as ih =>
    cases h with
    | nil => simp [startsWithL] at hs
    | cons b bs =>
      simp only [startsWithL, Bool.and_eq_true, beq_iff_eq] at hs
      obtain ⟨rfl, hs⟩ := hs
      obtain ⟨h1, h2⟩ := ih hs
      simp [List.take, h1, Nat.succ_le_succ h2]

/-- A `matchUrlCore` hit splits its input back together and is
URL-shaped, provided a scheme sits in the first `k` characters. -/
theorem matchUrlCore_spec {k : Nat} {cs m rest : List Char}
    (hk : pyLowerL (cs.take k) = "https://".toList ∨ pyLowerL (cs.take k) = "http://".toList)
    (h : matchUrlCore k cs = some (m, rest)) : m ++ rest = cs ∧ UrlShaped m := by
  unfold matchUrlCore at h
  by_cases hb : (cs.drop k).takeWhile (fun c => !isPyWs c) = []
  · simp [hb] at h
  · rw [if_neg hb] at h
    obtain ⟨rfl, rfl⟩ : cs.take k ++ (cs.drop k).takeWhile (fun c => !isPyWs c) = m
        ∧ (cs.drop k).dropWhile (fun c => !isPyWs c) = rest := by
      have := Option.some.inj h
      exact ⟨congrArg Prod.fst this, congrArg Prod.snd this⟩
    constructor
    · rw [List.append_assoc, List.takeWhile_append_dropWhile, List.take_append_drop]
    · refine ⟨cs.take k, (cs.drop k).takeWhile (fun c => !isPyWs c), rfl, hk, hb, ?_⟩
      intro c hc
      have := List.mem_takeWhile_imp hc
      simpa using this

/-- Every `matchUrlAt` hit splits its input back together and is
URL-shaped. -/
theorem matchUrlAt_spec {cs m rest : List Char}
    (h : matchUrlAt cs = some (m, rest)) : m ++ rest = cs ∧ UrlShaped m := by
  rw [matchUrlAt] at h
  by_cases h8 : startsWithL "https://".toList (pyLowerL cs) = true
  · rw [if_pos h8] at h
    refine matchUrlCore_spec (Or.inl ?_) h
    have ht := (startsWithL_take h8).1
    calc pyLowerL (cs.take 8) = (pyLowerL cs).take 8 := by simp [pyLowerL, List.map_take]
      _ = "https://".toList := by rw [show (8 : Nat) = ("https://".toList).length from rfl, ht]
  · rw [if_neg h8] at h
    by_cases h7 : startsWithL "http://".toList (pyLowerL cs) = true
    · rw [if_pos h7] at h
      refine matchUrlCore_spec (Or.inr ?_) h
      have ht := (startsWithL_take h7).1
      calc pyLowerL (cs.take 7) = (pyLowerL cs).take 7 := by simp [pyLowerL, List.map_take]
        _ = "http://".toList := by rw [show (7 : Nat) = ("http://".toList).length from rfl, ht]
    · rw [if_neg h7] at h
      exact absurd h (by simp)

/-- Reassociation helper: pasting `takeWhile` and `dropWhile` back. -/
theorem tadAppend (p : Char → Bool) (l X : List Char) :
    l.takeWhile p ++ (l.dropWhile p ++ X) = l ++ X := by
  rw [← List.append_assoc, List.takeWhile_append_dropWhile]

/-- Reassociation helper: pasting `take` and `drop` back. -/
theorem takeDropAppend (n : Nat) (l X : List Char) :
    l.take n ++ (l.drop n ++ X) = l ++ X := by
  rw [← List.append_assoc, List.take_append_drop]

/-- What a successful `lastDotSplit` guarantees about the split index. -/
theorem lastDotSplit_spec {dom : List Char} {L : Nat} (h : lastDotSplit dom = some L) :
    1 ≤ L ∧ dom[L]? = some '.' ∧ ∃ c, dom[L + 1]? = some c ∧ isWordChar c = true := by
  have hp := List.find?_some h
  rcases ho : dom[L + 1]? with _ | c
  · rw [ho] at hp
    simp [Option.any] at hp
  · rw [ho] at hp
    simp only [Bool.and_eq_true, decide_eq_true_eq, beq_iff_eq, Option.any] at hp
    exact ⟨hp.1.1, hp.1.2, c, rfl, hp.2⟩

/-- A `matchEmailCore` hit splits its input back together and is
email-shaped, given a non-empty all-`[\w.-]` local part. -/
theorem matchEmailCore_spec {lp rest m rest' : List Char}
    (hlp : lp ≠ []) (hlpc : ∀ c ∈ lp, isEmailChar c = true)
    (h : matchEmailCore lp rest = some (m, rest')) :
    m ++ rest' = lp ++ '@' :: rest ∧ EmailShaped m := by
  unfold matchEmailCore at h
  simp only [] at h
  split at h
  · exact absurd h (by simp)
  next L hsplit =>
    obtain ⟨hL1, hdot, w0, hw0, hw0w⟩ := lastDotSplit_spec hsplit
    have hL1lt : L + 1 < (rest.takeWhile isEmailChar).length :=
      (List.getElem?_eq_some_iff.mp hw0).1
    have hLlt : L < (rest.takeWhile isEmailChar).length := Nat.lt_of_succ_lt hL1lt
    have hinj := Option.some.inj h
    have hm : m = lp ++ '@' :: ((rest.takeWhile isEmailChar).take (L + 1)
        ++ ((rest.takeWhile isEmailChar).drop (L + 1)).takeWhile isWordChar) :=
      (congrArg Prod.fst hinj).symm
    have hr : rest' = ((rest.takeWhile isEmailChar).drop (L + 1)).dropWhile isWordChar
        ++ rest.dropWhile isEmailChar := (congrArg Prod.snd hinj).symm
    subst hm hr
    constructor
    · simp only [List.append_assoc, List.cons_append]
      rw [tadAppend, takeDropAppend, List.takeWhile_append_dropWhile]
    · have htake : (rest.takeWhile isEmailChar).take (L + 1)
          = (rest.takeWhile isEmailChar).take L ++ ['.'] := by
        rw [List.take_succ, hdot]
        rfl
      have hdropc : (rest.takeWhile isEmailChar).drop (L + 1)
          = w0 :: (rest.takeWhile isEmailChar).drop (L + 2) := by
        have := List.drop_eq_getElem_cons hL1lt
        rw [this]
        congr 1
        exact (List.getElem?_eq_some_iff.mp hw0).2
      refine ⟨lp, (rest.takeWhile isEmailChar).take L,
        ((rest.takeWhile isEmailChar).drop (L + 1)).takeWhile isWordChar,
        ?_, hlp, ?_, ?_, hlpc, ?_, ?_⟩
      · rw [htake]
        simp [List.append_assoc]
      · have hlen : ((rest.takeWhile isEmailChar).take L).length = L := by
          simp [List.length_take]
          omega
        intro hnil
        rw [hnil] at hlen
        simp at hlen
        omega
      · rw [hdropc, List.takeWhile_cons, hw0w]
        simp
      · intro c hc
        have hc2 : c ∈ rest.takeWhile isEmailChar := List.take_subset _ _ hc
        exact List.mem_takeWhile_imp hc2
      · intro c hc
        exact List.mem_takeWhile_imp hc

/-- Every `matchEmailAt` hit splits its input back together and is
email-shaped. -/
theorem matchEmailAt_spec {cs m rest' : List Char}
    (h : matchEmailAt cs = some (m, rest')) : m ++ rest' = cs ∧ EmailShaped m := by
  unfold matchEmailAt at h
  simp only [] at h
  split at h
  · exact absurd h (by simp)
  next hlp =>
    split at h
    next rest heq =>
      have hlpc : ∀ c ∈ cs.takeWhile isEmailChar, isEmailChar c = true :=
        fun c hc => List.mem_takeWhile_imp hc
      obtain ⟨happ, hshape⟩ := matchEmailCore_spec hlp hlpc h
      refine ⟨?_, hshape⟩
      rw [happ, ← heq, List.takeWhile_append_dropWhile]
    next _ => exact absurd h (by simp)

/-- Soundness of the `findall` scan: every emitted match satisfies the
matcher's shape property and occurs contiguously in the input. -/
theorem findAllWith_sound {matchAt : List Char → Option (List Char × List Char)}
    (P : List Char → Prop)
    (hspec : ∀ cs m rest, matchAt cs = some (m, rest) → m ++ rest = cs ∧ P m) :
    ∀ (fuel : Nat) (cs m : List Char), m ∈ findAllWith matchAt fuel cs → P m ∧ m <:+: cs := by
  intro fuel
  induction fuel with
  | zero => intro cs m hm; simp [findAllWith] at hm
  | succ fuel ih =>
    intro cs m hm
    cases cs with
    | nil => simp [findAllWith] at hm
    | cons c cs' =>
      rw [findAllWith] at hm
      cases hmt : matchAt (c :: cs') with
      | some pr =>
        obtain ⟨m₀, rest⟩ := pr
        rw [hmt] at hm
        rcases List.mem_cons.mp hm with rfl | hm'
        · obtain ⟨happ, hP⟩ := hspec _ _ _ hmt
          exact ⟨hP, ⟨[], rest, by simpa using happ⟩⟩
        · obtain ⟨hP, hinf⟩ := ih rest m hm'
          refine ⟨hP, hinf.trans ?_⟩
          obtain ⟨happ, _⟩ := hspec _ _ _ hmt
          exact ⟨m₀, [], by simpa using happ⟩
      | none =>
        rw [hmt] at hm
        obtain ⟨hP, hinf⟩ := ih cs' m hm
        exact ⟨hP, List.infix_cons hinf⟩

/-- **C4, amended.** `detect` returns none exactly when the body has no
job keyword; for a keyword-bearing body the returned `links`/`emails`
are exactly the leftmost non-overlapping greedy matches of the URL and
email patterns, and in particular every returned element fully matches
its pattern and occurs verbatim (contiguously) in the body. -/
theorem C4_detector (body : String) :
    (parseJob body = none ↔ isJobPost body = false)
    ∧ (∀ j, parseJob body = some j →
        j.links = extractLinks body ∧ j.emails = extractEmails body
        ∧ (∀ s ∈ j.links, UrlShaped s.toList ∧ s.toList <:+: body.toList)
        ∧ (∀ s ∈ j.emails, EmailShaped s.toList ∧ s.toList <:+: body.toList)) := by
  constructor
  · cases h : isJobPost body <;> simp [parseJob, h]
  · intro j hj
    have hjp : isJobPost body = true := by
      by_contra hc
      have : isJobPost body = false := Bool.eq_false_iff.mpr hc
      simp [parseJob, this] at hj
    rw [parseJob, if_pos hjp] at hj
    have hj' := (Option.some.inj hj).symm
    subst hj'
    refine ⟨rfl, rfl, ?_, ?_⟩
    · intro s hs
      simp only [extractLinks, List.mem_map] at hs
      obtain ⟨mch, hmem, rfl⟩ := hs
      have := findAllWith_sound UrlShaped
        (fun cs m rest h => matchUrlAt_spec h) body.toList.length body.toList mch hmem
      exact ⟨this.1, this.2⟩
    · intro s hs
      simp only [extractEmails, List.mem_map] at hs
      obtain ⟨mch, hmem, rfl⟩ := hs
      have := findAllWith_sound EmailShaped
        (fun cs m rest h => matchEmailAt_spec h) body.toList.length body.toList mch hmem
      exact ⟨this.1, this.2⟩

/-- **C4, counterexample.** The claim as stated requires *every*
URL-looking substring of the body to appear in `links`.  In the detected
body `"job https://a.b c"`, the substring `"https://a."` fully matches
the URL pattern and occurs in the body, yet `links` holds only the
maximal match `"https://a.b"`. -/
theorem C4_counterexample :
    UrlShaped "https://a.".toList
    ∧ "https://a.".toList <:+: "job https://a.b c".toList
    ∧ (parseJob "job https://a.b c").map JobInfo.links = some ["https://a.b"]
    ∧ "https://a." ∉ ["https://a.b"] :=
  ⟨⟨"https://".toList, "a.".toList, by decide, Or.inl (by decide), by decide, by decide⟩,
   by decide, rfl, by decide⟩

/-- Witness for **C4** on a concrete detected body: the returned link
and email are pattern-shaped and occur in the body. -/
theorem C4_detector_witness :
    (UrlShaped "https://jobs.io/x".toList
      ∧ "https://jobs.io/x".toList <:+: "hiring devs at https://jobs.io/x mail hr@acme.io".toList)
    ∧ (EmailShaped "hr@acme.io".toList
      ∧ "hr@acme.io".toList <:+: "hiring devs at https://jobs.io/x mail hr@acme.io".toList) :=
  ⟨((C4_detector "hiring devs at https://jobs.io/x mail hr@acme.io").2
      ⟨none, none, none, none, ["https://jobs.io/x"], ["hr@acme.io"],
        "hiring devs at https://jobs.io/x mail hr@acme.io"⟩ rfl).2.2.1
      "https://jobs.io/x" (by decide),
   ((C4_detector "hiring devs at https://jobs.io/x mail hr@acme.io").2
      ⟨none, none, none, none, ["https://jobs.io/x"], ["hr@acme.io"],
        "hiring devs at https://jobs.io/x mail hr@acme.io"⟩ rfl).2.2.2
      "hr@acme.io" (by decide)⟩
